import Mathlib

/-!
Shallow embedding of `src/app.py` (Flask order-cache service).

Modelling choices, uniform across the file:
* Time: Python's `datetime.now()` is an explicit `now : Nat` argument
  (seconds); each request is modelled at a single instant, and
  `datetime.now() - timestamp < timedelta(seconds=120)` becomes
  `now - ts < 120` on `Nat` (for `ts > now` both sides deem the entry
  fresh, so truncated subtraction agrees with the Python comparison).
* The process-global `CACHE` dict is explicit state, threaded through every
  function.  `CACHE[key] = (data, now)` is modelled by prepending
  `(key, (data, now))` to an association list and reading the newest entry:
  observationally identical to dict overwrite for every read the program
  performs, and the list keeps each superseded pair, which is convenient for
  stating what was ever stored.
* Heterogeneous cached values (order lists, booth/exhibitor bundles,
  exhibitor rosters) become the sum type `CacheVal`.  Python truthiness
  (`if cached_data:`) is embedded at each call site: an empty list is
  falsy, a result dict (our bundles, which always carry keys) is truthy.
  A cache hit of a shape other than the one the caller stores under that
  key is treated as a miss; such a hit never happens, because the
  distinct key namespaces (`"all_orders"`, `"booth_"…`, `"exhibitor_"…`,
  `"exhibitors"`) never collide, which the reachable-state invariant below
  makes precise for `"all_orders"`.
* The remote call `abacus_manager.get_orders_data(...)` is an oracle
  parameter `fetch : Option (List Order)`: `none` models the call raising
  (or returning `None`), `some l` models it returning the list `l`.
* Each embedded function additionally returns whether this request invoked
  the remote fetch, so that force-refresh propagation is observable.
* JSON error responses (the `except` blocks of the route handlers) are
  built in a small `Json` type, exactly with the keys the source writes.
-/

/-- One order record, the fields of the dicts in `get_mock_orders`
(`src/app.py` lines 89–144); `section_name` stands for the Python key
`'section'`, which is a keyword in Lean. -/
structure Order where
  id : String
  booth_number : String
  exhibitor_name : String
  item : String
  description : String
  color : String
  quantity : Nat
  status : String
  order_date : String
  comments : String
  section_name : String
deriving DecidableEq, Repr

/-- Booth result bundle built at `src/app.py` lines 198–205. -/
structure BoothBundle where
  booth : String
  orders : List Order
  total_orders : Nat
  delivered_orders : Nat
  last_updated : Nat
  force_refreshed : Bool
deriving DecidableEq, Repr

/-- Exhibitor result bundle built at `src/app.py` lines 247–254. -/
structure ExhibBundle where
  exhibitor : String
  orders : List Order
  total_orders : Nat
  delivered_orders : Nat
  last_updated : Nat
  force_refreshed : Bool
deriving DecidableEq, Repr

/-- One entry of `exhibitors_dict` (`src/app.py` lines 297–307). -/
structure ExhibitorSummary where
  name : String
  booth : String
  total_orders : Nat
  delivered_orders : Nat
deriving DecidableEq, Repr

/-- The shapes of values the program stores in `CACHE`. -/
inductive CacheVal where
  | ordersV (l : List Order)
  | boothV (b : BoothBundle)
  | exhibV (b : ExhibBundle)
  | rosterV (l : List ExhibitorSummary)
deriving DecidableEq, Repr

/-- The global `CACHE` dict (`src/app.py` line 21): newest entry first. -/
abbrev Cache : Type := List (String × CacheVal × Nat)

/-- `CACHE_DURATION = 120` (`src/app.py` line 22). -/
def CACHE_DURATION : Nat := 120

/-- `CACHE[key]`, newest write wins (Python dict overwrite). -/
def cacheLookup (c : Cache) (key : String) : Option (CacheVal × Nat) :=
  (c.find? (fun e => e.1 = key)).map (fun e => e.2)

/-- `get_from_cache(key, allow_cache)` (`src/app.py` lines 25–35): `none`
models Python `None`. -/
def get_from_cache (c : Cache) (key : String) (now : Nat)
    (allow_cache : Bool := true) : Option CacheVal :=
  if !allow_cache then none
  else
    match cacheLookup c key with
    | some (data, timestamp) =>
        if now - timestamp < CACHE_DURATION then some data else none
    | none => none

/-- `set_cache(key, data)` (`src/app.py` lines 37–39). -/
def set_cache (c : Cache) (key : String) (data : CacheVal) (now : Nat) : Cache :=
  (key, (data, now)) :: c

/-- The fixed mock fallback set, `get_mock_orders()`
(`src/app.py` lines 89–144), value for value. -/
def get_mock_orders : List Order :=
  [ { id := "ORD-2025-001"
    , booth_number := "A-245"
    , exhibitor_name := "TechFlow Innovations"
    , item := "Premium Booth Setup Package"
    , description := "Complete booth installation with premium furniture, lighting, and tech setup"
    , color := "White"
    , quantity := 1
    , status := "out-for-delivery"
    , order_date := "June 14, 2025"
    , comments := "Rush delivery requested"
    , section_name := "Section A" }
  , { id := "ORD-2025-002"
    , booth_number := "A-245"
    , exhibitor_name := "TechFlow Innovations"
    , item := "Interactive Display System"
    , description := "75\" 4K touchscreen display with interactive software and mounting"
    , color := "Black"
    , quantity := 1
    , status := "in-route"
    , order_date := "June 13, 2025"
    , comments := ""
    , section_name := "Section A" }
  , { id := "ORD-2025-003"
    , booth_number := "B-156"
    , exhibitor_name := "GreenWave Energy"
    , item := "Marketing Materials Bundle"
    , description := "Banners, brochures, business cards, and promotional items"
    , color := "Green"
    , quantity := 5
    , status := "delivered"
    , order_date := "June 12, 2025"
    , comments := "Eco-friendly materials requested"
    , section_name := "Section B" }
  , { id := "ORD-2025-004"
    , booth_number := "C-089"
    , exhibitor_name := "SmartHealth Corp"
    , item := "Audio-Visual Equipment"
    , description := "Professional sound system, microphones, and presentation equipment"
    , color := "White"
    , quantity := 1
    , status := "in-process"
    , order_date := "June 14, 2025"
    , comments := "Medical grade equipment required"
    , section_name := "Section C" } ]

/-- `load_orders_from_abacus(force_refresh)` (`src/app.py` lines 50–87).
Returns (the order list the function returns, the cache after the call,
whether the remote fetch was invoked).  The Python `if cached_data:`
truthiness test on the hit makes an empty cached list a miss; a hit of a
different `CacheVal` shape (impossible under the key discipline, see the
reachable-state invariant) is likewise a miss.  A fetch of `some l` with
`l ≠ []` is the `orders_data and len(orders_data) > 0` branch; `some []`
and `none` both land in the `except` fallback. -/
def load_orders_from_abacus (fetch : Option (List Order)) (c : Cache)
    (now : Nat) (force_refresh : Bool) : List Order × Cache × Bool :=
  let cache_key := "all_orders"
  let cached_data : Option (List Order) :=
    if force_refresh then none
    else
      match get_from_cache c cache_key now true with
      | some (CacheVal.ordersV l) => if l.isEmpty then none else some l
      | some _ => none
      | none => none
  match cached_data with
  | some l => (l, c, false)
  | none =>
      match fetch with
      | some orders_data =>
          if 0 < orders_data.length then
            (orders_data,
             set_cache c cache_key (CacheVal.ordersV orders_data) now, true)
          else
            (get_mock_orders,
             set_cache c cache_key (CacheVal.ordersV get_mock_orders) now, true)
      | none =>
          (get_mock_orders,
           set_cache c cache_key (CacheVal.ordersV get_mock_orders) now, true)

/-- Python `str.lower()`, character-wise (for the ASCII identifiers this
program compares, identical to `String.toLower`, but stated through
structural `List.map` so that the kernel can evaluate it on literals). -/
def str_lower (s : String) : String := String.mk (s.data.map Char.toLower)

/-- The booth filter of `src/app.py` lines 191–194:
`order['booth_number'].lower() == booth_number.lower()`. -/
def filter_by_booth (all_orders : List Order) (booth_number : String) : List Order :=
  all_orders.filter (fun o => str_lower o.booth_number = str_lower booth_number)

/-- The exhibitor filter of `src/app.py` lines 240–243. -/
def filter_by_exhibitor (all_orders : List Order) (exhibitor_name : String) : List Order :=
  all_orders.filter (fun o => str_lower o.exhibitor_name = str_lower exhibitor_name)

/-- `len([o for o in orders if o['status'] == 'delivered'])`. -/
def delivered_len (orders : List Order) : Nat :=
  (orders.filter (fun o => o.status = "delivered")).length

/-- The success path of route `get_orders_by_booth(booth_number)`
(`src/app.py` lines 176–212).  Returns (the bundle the route serialises,
the cache after the call, whether the remote fetch was invoked).  The
cached value under a booth key is a result dict, always truthy in Python,
so a fresh hit is returned as is. -/
def get_orders_by_booth (fetch : Option (List Order)) (c : Cache) (now : Nat)
    (booth_number : String) (force_refresh : Bool) : BoothBundle × Cache × Bool :=
  let cache_key := "booth_" ++ booth_number
  let cached_data : Option BoothBundle :=
    if force_refresh then none
    else
      match get_from_cache c cache_key now true with
      | some (CacheVal.boothV b) => some b
      | some _ => none
      | none => none
  match cached_data with
  | some b => (b, c, false)
  | none =>
      let r := load_orders_from_abacus fetch c now force_refresh
      let booth_orders := filter_by_booth r.1 booth_number
      let result : BoothBundle :=
        { booth := booth_number
        , orders := booth_orders
        , total_orders := booth_orders.length
        , delivered_orders := delivered_len booth_orders
        , last_updated := now
        , force_refreshed := force_refresh }
      (result, set_cache r.2.1 cache_key (CacheVal.boothV result) now, r.2.2)

/-- The success path of route `get_orders_by_exhibitor(exhibitor_name)`
(`src/app.py` lines 225–261), same shape as the booth route. -/
def get_orders_by_exhibitor (fetch : Option (List Order)) (c : Cache) (now : Nat)
    (exhibitor_name : String) (force_refresh : Bool) : ExhibBundle × Cache × Bool :=
  let cache_key := "exhibitor_" ++ exhibitor_name
  let cached_data : Option ExhibBundle :=
    if force_refresh then none
    else
      match get_from_cache c cache_key now true with
      | some (CacheVal.exhibV b) => some b
      | some _ => none
      | none => none
  match cached_data with
  | some b => (b, c, false)
  | none =>
      let r := load_orders_from_abacus fetch c now force_refresh
      let exhibitor_orders := filter_by_exhibitor r.1 exhibitor_name
      let result : ExhibBundle :=
        { exhibitor := exhibitor_name
        , orders := exhibitor_orders
        , total_orders := exhibitor_orders.length
        , delivered_orders := delivered_len exhibitor_orders
        , last_updated := now
        , force_refreshed := force_refresh }
      (result, set_cache r.2.1 cache_key (CacheVal.exhibV result) now, r.2.2)

/-- One iteration of the `for order in orders` loop of `get_exhibitors`
(`src/app.py` lines 293–307) on `exhibitors_dict`, modelled as the list of
its values in insertion order (Python dicts preserve insertion order, and
the final response is `list(exhibitors_dict.values())`): if the exact
`exhibitor_name` key is absent, append a zero entry carrying this order's
booth; then increment that key's counters.  `roster_bump` is the increment
(`src/app.py` lines 305–307), applied to the one entry whose key matches. -/
def roster_bump (o : Order) (s : ExhibitorSummary) : ExhibitorSummary :=
  if s.name = o.exhibitor_name then
    { s with
      total_orders := s.total_orders + 1
      delivered_orders :=
        s.delivered_orders + (if o.status = "delivered" then 1 else 0) }
  else s

def roster_step (d : List ExhibitorSummary) (o : Order) : List ExhibitorSummary :=
  let d1 :=
    if d.any (fun s => s.name = o.exhibitor_name) then d
    else d ++ [{ name := o.exhibitor_name
               , booth := o.booth_number
               , total_orders := 0
               , delivered_orders := 0 }]
  d1.map (roster_bump o)

/-- The whole loop of `get_exhibitors`: fold `roster_step` over the orders. -/
def build_roster (orders : List Order) : List ExhibitorSummary :=
  orders.foldl roster_step []

/-- The success path of route `get_exhibitors()` (`src/app.py` lines
274–311).  A cached empty roster list is falsy in Python, hence a miss. -/
def get_exhibitors (fetch : Option (List Order)) (c : Cache) (now : Nat)
    (force_refresh : Bool) : List ExhibitorSummary × Cache × Bool :=
  let cache_key := "exhibitors"
  let cached_data : Option (List ExhibitorSummary) :=
    if force_refresh then none
    else
      match get_from_cache c cache_key now true with
      | some (CacheVal.rosterV l) => if l.isEmpty then none else some l
      | some _ => none
      | none => none
  match cached_data with
  | some l => (l, c, false)
  | none =>
      let r := load_orders_from_abacus fetch c now force_refresh
      let exhibitors := build_roster r.1
      (exhibitors, set_cache r.2.1 cache_key (CacheVal.rosterV exhibitors) now, r.2.2)

/-- The stats dict built at `src/app.py` lines 323–331. -/
structure Stats where
  total_orders : Nat
  delivered : Nat
  in_process : Nat
  in_route : Nat
  out_for_delivery : Nat
  cancelled : Nat
  last_updated : Nat
deriving DecidableEq, Repr

/-- The comprehensions of `get_stats` applied to an order list. -/
def compute_stats (orders : List Order) (now : Nat) : Stats :=
  { total_orders := orders.length
  , delivered := (orders.filter (fun o => o.status = "delivered")).length
  , in_process := (orders.filter (fun o => o.status = "in-process")).length
  , in_route := (orders.filter (fun o => o.status = "in-route")).length
  , out_for_delivery := (orders.filter (fun o => o.status = "out-for-delivery")).length
  , cancelled := (orders.filter (fun o => o.status = "cancelled")).length
  , last_updated := now }

/-- Route `get_stats()` (`src/app.py` lines 317–333): no dedicated cache
key, only the `"all_orders"` cache `load_orders_from_abacus` reads. -/
def get_stats (fetch : Option (List Order)) (c : Cache) (now : Nat)
    (force_refresh : Bool) : Stats × Cache × Bool :=
  let r := load_orders_from_abacus fetch c now force_refresh
  (compute_stats r.1 now, r.2.1, r.2.2)

/-- Route `clear_cache()` (`src/app.py` lines 335–341): `CACHE = {}`. -/
def clear_cache (_c : Cache) : Cache := []

/-- Just enough JSON to state what the error responses of the route
handlers contain. -/
inductive Json where
  | strV (s : String)
  | natV (n : Nat)
  | arrV (l : List Json)
  | objV (l : List (String × Json))

/-- Key lookup in a JSON object; `none` on any other JSON shape. -/
def Json.lookup : Json → String → Option Json
  | Json.objV l, key => (l.find? (fun e => e.1 = key)).map (fun e => e.2)
  | _, _ => none

/-- The `except` block of `get_orders_by_booth` (`src/app.py` lines
214–223): the JSON body, with the exception text `e` under `"error"`, and
the HTTP status 500. -/
def booth_error_response (booth_number : String) (e : String) (now : Nat) :
    Json × Nat :=
  (Json.objV
    [ ("booth", Json.strV booth_number)
    , ("orders", Json.arrV [])
    , ("total_orders", Json.natV 0)
    , ("delivered_orders", Json.natV 0)
    , ("last_updated", Json.natV now)
    , ("error", Json.strV e) ], 500)

/-- The `except` block of `get_orders_by_exhibitor` (`src/app.py` lines
263–272). -/
def exhibitor_error_response (exhibitor_name : String) (e : String) (now : Nat) :
    Json × Nat :=
  (Json.objV
    [ ("exhibitor", Json.strV exhibitor_name)
    , ("orders", Json.arrV [])
    , ("total_orders", Json.natV 0)
    , ("delivered_orders", Json.natV 0)
    , ("last_updated", Json.natV now)
    , ("error", Json.strV e) ], 500)

/-- The `except` block of `get_exhibitors` (`src/app.py` lines 313–315):
`return jsonify([]), 500` — the exception text is only logged, the body is
a bare empty array. -/
def exhibitors_error_response (_e : String) : Json × Nat :=
  (Json.arrV [], 500)

/-- One request against the service, as far as the cache is concerned. -/
inductive Op where
  | ordersOp (fetch : Option (List Order)) (now : Nat) (force_refresh : Bool)
  | boothOp (fetch : Option (List Order)) (now : Nat) (booth_number : String)
      (force_refresh : Bool)
  | exhibitorOp (fetch : Option (List Order)) (now : Nat) (exhibitor_name : String)
      (force_refresh : Bool)
  | exhibitorsOp (fetch : Option (List Order)) (now : Nat) (force_refresh : Bool)
  | statsOp (fetch : Option (List Order)) (now : Nat) (force_refresh : Bool)
  | clearOp

/-- The cache after serving one request. -/
def applyOp (c : Cache) : Op → Cache
  | Op.ordersOp fetch now fr => (load_orders_from_abacus fetch c now fr).2.1
  | Op.boothOp fetch now bn fr => (get_orders_by_booth fetch c now bn fr).2.1
  | Op.exhibitorOp fetch now en fr => (get_orders_by_exhibitor fetch c now en fr).2.1
  | Op.exhibitorsOp fetch now fr => (get_exhibitors fetch c now fr).2.1
  | Op.statsOp fetch now fr => (get_stats fetch c now fr).2.1
  | Op.clearOp => clear_cache c

/-- The cache after a whole request history, starting from the empty cache
the process boots with. -/
def runOps (ops : List Op) : Cache := ops.foldl applyOp []

/-! ### Basic lemmas about the cache and the fetch orchestration -/

theorem string_data_append (a b : String) : (a ++ b).data = a.data ++ b.data := by
  cases a; cases b; rfl

theorem booth_key_ne (bn : String) : ("booth_" ++ bn) ≠ "all_orders" := by
  intro h
  have h1 : ("booth_" ++ bn).data = "all_orders".data := by rw [h]
  rw [string_data_append] at h1
  simp [show "booth_".data = ['b','o','o','t','h','_'] from rfl,
        show "all_orders".data = ['a','l','l','_','o','r','d','e','r','s'] from rfl] at h1

theorem exhibitor_key_ne (en : String) : ("exhibitor_" ++ en) ≠ "all_orders" := by
  intro h
  have h1 : ("exhibitor_" ++ en).data = "all_orders".data := by rw [h]
  rw [string_data_append] at h1
  simp [show "exhibitor_".data = ['e','x','h','i','b','i','t','o','r','_'] from rfl,
        show "all_orders".data = ['a','l','l','_','o','r','d','e','r','s'] from rfl] at h1

theorem cacheLookup_set_self (c : Cache) (k : String) (v : CacheVal) (now : Nat) :
    cacheLookup (set_cache c k v now) k = some (v, now) := by
  simp [cacheLookup, set_cache, List.find?]

theorem cacheLookup_set_other (c : Cache) (k k2 : String) (v : CacheVal) (now : Nat)
    (h : k2 ≠ k) : cacheLookup (set_cache c k2 v now) k = cacheLookup c k := by
  simp [cacheLookup, set_cache, List.find?, h]

/-- Case analysis of `load_orders_from_abacus`: a fresh truthy cache hit is
returned with the cache untouched and no fetch; a non-empty fetch result is
stored and returned; otherwise the mock set is stored and returned. -/
theorem load_orders_cases (fetch : Option (List Order)) (c : Cache) (now : Nat)
    (fr : Bool) :
    (∃ l, fr = false ∧ get_from_cache c "all_orders" now true = some (CacheVal.ordersV l)
        ∧ l.isEmpty = false
        ∧ load_orders_from_abacus fetch c now fr = (l, c, false))
  ∨ (∃ l, fetch = some l ∧ 0 < l.length
        ∧ load_orders_from_abacus fetch c now fr
            = (l, set_cache c "all_orders" (CacheVal.ordersV l) now, true))
  ∨ ((fetch = none ∨ fetch = some [])
        ∧ load_orders_from_abacus fetch c now fr
            = (get_mock_orders,
               set_cache c "all_orders" (CacheVal.ordersV get_mock_orders) now, true)) := by
  unfold load_orders_from_abacus
  cases fr with
  | false =>
      cases hg : get_from_cache c "all_orders" now true with
      | none =>
          cases fetch with
          | none => right; right; simp [hg]
          | some l =>
              cases hl : l.length with
              | zero =>
                  right; right
                  have : l = [] := List.length_eq_zero.mp hl
                  simp [hg, this]
              | succ n => right; left; exact ⟨l, rfl, by simp [hl], by simp [hg, hl]⟩
      | some v =>
          cases v with
          | ordersV l =>
              cases he : l.isEmpty with
              | true =>
                  have : l = [] := List.isEmpty_iff.mp he
                  subst this
                  cases fetch with
                  | none => right; right; simp [hg]
                  | some l2 =>
                      cases hl : l2.length with
                      | zero =>
                          right; right
                          have : l2 = [] := List.length_eq_zero.mp hl
                          simp [hg, this]
                      | succ n => right; left; exact ⟨l2, rfl, by simp [hl], by simp [hg, hl]⟩
              | false => left; exact ⟨l, rfl, by simp [hg], by simp [he], by simp [hg, he]⟩
          | boothV b =>
              cases fetch with
              | none => right; right; simp [hg]
              | some l2 =>
                  cases hl : l2.length with
                  | zero =>
                      right; right
                      have : l2 = [] := List.length_eq_zero.mp hl
                      simp [hg, this]
                  | succ n => right; left; exact ⟨l2, rfl, by simp [hl], by simp [hg, hl]⟩
          | exhibV b =>
              cases fetch with
              | none => right; right; simp [hg]
              | some l2 =>
                  cases hl : l2.length with
                  | zero =>
                      right; right
                      have : l2 = [] := List.length_eq_zero.mp hl
                      simp [hg, this]
                  | succ n => right; left; exact ⟨l2, rfl, by simp [hl], by simp [hg, hl]⟩
          | rosterV l2 =>
              cases fetch with
              | none => right; right; simp [hg]
              | some l3 =>
                  cases hl : l3.length with
                  | zero =>
                      right; right
                      have : l3 = [] := List.length_eq_zero.mp hl
                      simp [hg, this]
                  | succ n => right; left; exact ⟨l3, rfl, by simp [hl], by simp [hg, hl]⟩
  | true =>
      cases fetch with
      | none => right; right; simp
      | some l =>
          cases hl : l.length with
          | zero =>
              right; right
              have : l = [] := List.length_eq_zero.mp hl
              simp [this]
          | succ n => right; left; exact ⟨l, rfl, by simp [hl], by simp [hl]⟩

/-- `load_orders_from_abacus` never returns an empty list: a truthy cache
hit is non-empty, a fetch result is only returned when non-empty, and the
mock set has four orders. -/
theorem load_orders_ne_nil (fetch : Option (List Order)) (c : Cache) (now : Nat)
    (fr : Bool) : (load_orders_from_abacus fetch c now fr).1 ≠ [] := by
  rcases load_orders_cases fetch c now fr with
    ⟨l, _, _, he, hload⟩ | ⟨l, _, hl, hload⟩ | ⟨_, hload⟩
  · rw [hload]
    intro hnil
    have hl2 : l = [] := hnil
    rw [hl2] at he
    simp at he
  · rw [hload]
    intro hnil
    have hl2 : l = [] := hnil
    rw [hl2] at hl
    simp at hl
  · rw [hload]
    simp [get_mock_orders]

/-- Claim C1: `load_orders_from_abacus` never propagates a fetch failure:
whenever the upstream fetch fails (raises) or returns zero records, any
call that actually invokes the fetch returns the fixed mock set and stores
it in the cache under `"all_orders"`; and for every `force_refresh` the
function returns a non-empty (usable) order sequence. -/
theorem spec_C1 (fetch : Option (List Order)) (c : Cache) (now : Nat)
    (force_refresh : Bool) (hfail : fetch = none ∨ fetch = some []) :
    (load_orders_from_abacus fetch c now force_refresh).1 ≠ []
  ∧ ((load_orders_from_abacus fetch c now force_refresh).2.2 = true →
      (load_orders_from_abacus fetch c now force_refresh).1 = get_mock_orders
      ∧ cacheLookup (load_orders_from_abacus fetch c now force_refresh).2.1 "all_orders"
          = some (CacheVal.ordersV get_mock_orders, now)) := by
  refine ⟨load_orders_ne_nil fetch c now force_refresh, ?_⟩
  intro hfetched
  rcases load_orders_cases fetch c now force_refresh with
    ⟨l, _, _, _, hload⟩ | ⟨l, hf, hl, _⟩ | ⟨_, hload⟩
  · rw [hload] at hfetched
    simp at hfetched
  · rcases hfail with h | h <;> rw [h] at hf
    · cases hf
    · have : ([] : List Order) = l := by injection hf
      rw [← this] at hl
      simp at hl
  · rw [hload]
    exact ⟨rfl, cacheLookup_set_self c "all_orders" (CacheVal.ordersV get_mock_orders) now⟩

/-- Witness for C1 at a concrete input: failing fetch, empty cache. -/
theorem spec_C1_witness :
    (load_orders_from_abacus none [] 0 false).1 = get_mock_orders :=
  ((spec_C1 none [] 0 false (Or.inl rfl)).2 rfl).1

/-- Claim C2: the full `get_from_cache` contract: bypass always misses;
a `set_cache` followed at the same instant by a get returns the value; a
get with the cache allowed returns the stored value exactly when an entry
exists and fewer than `CACHE_DURATION` seconds have elapsed; once
`CACHE_DURATION` seconds have elapsed the get misses. -/
theorem spec_C2 :
    (∀ (c : Cache) (key : String) (now : Nat), get_from_cache c key now false = none)
  ∧ (∀ (c : Cache) (key : String) (v : CacheVal) (now : Nat),
      get_from_cache (set_cache c key v now) key now true = some v)
  ∧ (∀ (c : Cache) (key : String) (now : Nat) (v : CacheVal),
      get_from_cache c key now true = some v ↔
        ∃ ts, cacheLookup c key = some (v, ts) ∧ now - ts < CACHE_DURATION)
  ∧ (∀ (c : Cache) (key : String) (v : CacheVal) (ts now : Nat),
      cacheLookup c key = some (v, ts) → CACHE_DURATION ≤ now - ts →
      get_from_cache c key now true = none) := by
  refine ⟨fun c key now => rfl, fun c key v now => ?_, fun c key now v => ?_,
    fun c key v ts now h1 h2 => ?_⟩
  · simp [get_from_cache, cacheLookup_set_self, CACHE_DURATION]
  · constructor
    · intro h
      unfold get_from_cache at h
      cases hl : cacheLookup c key with
      | none => rw [hl] at h; simp at h
      | some p =>
          obtain ⟨v2, ts⟩ := p
          rw [hl] at h
          by_cases hfresh : now - ts < CACHE_DURATION
      
          · simp [hfresh] at h
            subst h
            exact ⟨ts, rfl, hfresh⟩
          · simp [hfresh] at h
    · rintro ⟨ts, hl, hfresh⟩
      unfold get_from_cache
      simp [hl, hfresh]
  · unfold get_from_cache
    simp [h1]
    omega

/-- Claim C5: force-refresh propagates through both cache layers: for every
cache state (in particular one with fresh entries under both keys), a
booth query with `force_refresh=true` skips both lookups and invokes the
remote fetch, as does `load_orders_from_abacus` itself. -/
theorem spec_C5 (fetch : Option (List Order)) (c : Cache) (now : Nat) (bn : String) :
    (load_orders_from_abacus fetch c now true).2.2 = true
  ∧ (get_orders_by_booth fetch c now bn true).2.2 = true := by
  have hload : (load_orders_from_abacus fetch c now true).2.2 = true := by
    rcases load_orders_cases fetch c now true with
      ⟨l, hfr, _, _, _⟩ | ⟨l, _, _, h⟩ | ⟨_, h⟩
    · cases hfr
    · rw [h]
    · rw [h]
  exact ⟨hload, by unfold get_orders_by_booth; simpa using hload⟩

/-- Claim C6: with an always-failing fetch and no prior `"all_orders"`
entry, two `load_orders_from_abacus false` calls within the TTL window
both return the identical mock set, whose first order has id
`"ORD-2025-001"` and status `"out-for-delivery"`. -/
theorem spec_C6 (c : Cache) (now1 now2 : Nat)
    (h0 : cacheLookup c "all_orders" = none)
    (h2 : now2 - now1 < CACHE_DURATION) :
    (load_orders_from_abacus none c now1 false).1 = get_mock_orders
  ∧ (load_orders_from_abacus none
      (load_orders_from_abacus none c now1 false).2.1 now2 false).1 = get_mock_orders
  ∧ get_mock_orders.head?.map Order.id = some "ORD-2025-001"
  ∧ get_mock_orders.head?.map Order.status = some "out-for-delivery" := by
  have hget : get_from_cache c "all_orders" now1 true = none := by
    unfold get_from_cache
    simp [h0]
  have h1 : load_orders_from_abacus none c now1 false
      = (get_mock_orders,
         set_cache c "all_orders" (CacheVal.ordersV get_mock_orders) now1, true) := by
    rcases load_orders_cases none c now1 false with
      ⟨l, _, hg, _, _⟩ | ⟨l, hf, _, _⟩ | ⟨_, h⟩
    · rw [hget] at hg; cases hg
    · cases hf
    · exact h
  refine ⟨by rw [h1], ?_, rfl, rfl⟩
  rw [h1]
  have hg2 : get_from_cache
      (set_cache c "all_orders" (CacheVal.ordersV get_mock_orders) now1)
      "all_orders" now2 true = some (CacheVal.ordersV get_mock_orders) := by
    unfold get_from_cache
    simp [cacheLookup_set_self, h2]
  rcases load_orders_cases none
      (set_cache c "all_orders" (CacheVal.ordersV get_mock_orders) now1) now2 false with
    ⟨l, _, hg, _, hl⟩ | ⟨l, hf, _, _⟩ | ⟨_, h⟩
  · rw [hg2] at hg
    have h3 : CacheVal.ordersV get_mock_orders = CacheVal.ordersV l := by injection hg
    have hlm : get_mock_orders = l := by injection h3
    rw [hl, ← hlm]
  · cases hf
  · rw [h]

/-- Witness for C6: empty cache, both calls inside the window. -/
theorem spec_C6_witness :
    (load_orders_from_abacus none [] 0 false).1 = get_mock_orders
  ∧ (load_orders_from_abacus none
      (load_orders_from_abacus none [] 0 false).2.1 119 false).1 = get_mock_orders
  ∧ get_mock_orders.head?.map Order.id = some "ORD-2025-001"
  ∧ get_mock_orders.head?.map Order.status = some "out-for-delivery" :=
  spec_C6 [] 0 119 rfl (by decide)

theorem filter_by_booth_congr (orders : List Order) (b1 b2 : String)
    (h : str_lower b1 = str_lower b2) :
    filter_by_booth orders b1 = filter_by_booth orders b2 := by
  unfold filter_by_booth
  apply List.filter_congr
  intro o _
  simp [h]

/-- Claim C7: booth filtering is a case-insensitive exact match on
`booth_number`: booths agreeing up to case give identical result sets (in
particular `"a-245"` and `"A-245"`), the matching orders form a sublist of
the full sequence (insertion order preserved), and the booth route's
bundle carries exactly that filtered list. -/
theorem spec_C7 (orders : List Order) (b1 b2 : String)
    (h : str_lower b1 = str_lower b2) :
    filter_by_booth orders b1 = filter_by_booth orders b2
  ∧ filter_by_booth orders "a-245" = filter_by_booth orders "A-245"
  ∧ (filter_by_booth orders b1).Sublist orders
  ∧ ∀ (fetch : Option (List Order)) (now : Nat) (fr : Bool),
      (get_orders_by_booth fetch [] now b1 fr).1.orders
        = filter_by_booth (load_orders_from_abacus fetch [] now fr).1 b1 := by
  refine ⟨filter_by_booth_congr orders b1 b2 h,
    filter_by_booth_congr orders "a-245" "A-245" (by decide),
    List.filter_sublist orders, ?_⟩
  intro fetch now fr
  cases fr <;> rfl

/-- Witness for C7 on the mock orders. -/
theorem spec_C7_witness :
    filter_by_booth get_mock_orders "a-245" = filter_by_booth get_mock_orders "A-245" :=
  (spec_C7 get_mock_orders "a-245" "A-245" (by decide)).1

/-- Claim C3 (amended): the `force_refreshed` field of a booth bundle
records the `force_refresh` flag of the call that computed the bundle, not
of the call that returns it: a `force_refresh=true` call reports `true`; a
call finding no fresh cached bundle computes and reports its own flag; but
a `force_refresh=false` call that hits a fresh cached bundle returns that
stored bundle verbatim, whatever flag it carries. -/
theorem spec_C3 (fetch : Option (List Order)) (c : Cache) (now : Nat)
    (bn : String) (fr : Bool) :
    (get_orders_by_booth fetch c now bn true).1.force_refreshed = true
  ∧ (get_from_cache c ("booth_" ++ bn) now true = none →
      (get_orders_by_booth fetch c now bn fr).1.force_refreshed = fr)
  ∧ (∀ b, get_from_cache c ("booth_" ++ bn) now true = some (CacheVal.boothV b) →
      get_orders_by_booth fetch c now bn false = (b, c, false)) := by
  refine ⟨?_, ?_, ?_⟩
  · unfold get_orders_by_booth
    simp
  · intro hnone
    unfold get_orders_by_booth
    cases fr <;> simp [hnone]
  · intro b hb
    unfold get_orders_by_booth
    simp [hb]

/-- Counterexample to C3 as stated: after a `force_refresh=true` booth
query fills the cache, a `force_refresh=false` query within the TTL window
is answered from the cache (the fetch flag is `false`, the returned bundle
is the cached one), yet its `force_refreshed` field reads `true`. -/
theorem spec_C3_counterexample :
    (get_orders_by_booth none
        (get_orders_by_booth none [] 0 "A-245" true).2.1 10 "A-245" false).2.2 = false
  ∧ (get_orders_by_booth none
        (get_orders_by_booth none [] 0 "A-245" true).2.1 10 "A-245" false).1
      = (get_orders_by_booth none [] 0 "A-245" true).1
  ∧ (get_orders_by_booth none
        (get_orders_by_booth none [] 0 "A-245" true).2.1 10 "A-245" false).1.force_refreshed
      = true := by
  refine ⟨rfl, rfl, rfl⟩

/-- Claim C4 (amended): of the Query Layer entry points, exactly the
per-booth, per-exhibitor and exhibitor-roster routes catch derivation
exceptions and convert them into an empty/zero-valued body with status
500: the per-booth and per-exhibitor bodies carry the exception text
under `"error"`, while the exhibitor-roster body is a bare empty array
with no error string.  `get_stats` (`src/app.py` lines 317–333) has no
`try/except` at all — a derivation exception there propagates to the
framework — so the layer-wide conversion does not extend to it; this
theorem is about the three handlers that do catch. -/
theorem spec_C4 (bn en e : String) (now : Nat) :
    Json.lookup (booth_error_response bn e now).1 "error" = some (Json.strV e)
  ∧ Json.lookup (booth_error_response bn e now).1 "orders" = some (Json.arrV [])
  ∧ Json.lookup (booth_error_response bn e now).1 "total_orders" = some (Json.natV 0)
  ∧ (booth_error_response bn e now).2 = 500
  ∧ Json.lookup (exhibitor_error_response en e now).1 "error" = some (Json.strV e)
  ∧ Json.lookup (exhibitor_error_response en e now).1 "orders" = some (Json.arrV [])
  ∧ (exhibitor_error_response en e now).2 = 500
  ∧ (exhibitors_error_response e).1 = Json.arrV []
  ∧ (exhibitors_error_response e).2 = 500
  ∧ Json.lookup (exhibitors_error_response e).1 "error" = none := by
  refine ⟨rfl, rfl, rfl, rfl, rfl, rfl, rfl, rfl, rfl, rfl⟩

/-- Counterexample to C4 as stated: the exhibitor-roster failure response
for a concrete exception is the bare empty array with status 500 — it
carries no error string. -/
theorem spec_C4_counterexample :
    (exhibitors_error_response "boom").1 = Json.arrV []
  ∧ (exhibitors_error_response "boom").2 = 500
  ∧ Json.lookup (exhibitors_error_response "boom").1 "error" = none := by
  refine ⟨rfl, rfl, rfl⟩

/-- Claim C9: the stats derivation counts the total and each of the five
status values directly over the full order set the load returned; on the 4
mock orders (failing fetch, empty cache) it yields 4/1/1/1/1/0. -/
theorem spec_C9 (fetch : Option (List Order)) (c : Cache) (now : Nat)
    (force_refresh : Bool) :
    (get_stats fetch c now force_refresh).1
      = compute_stats (load_orders_from_abacus fetch c now force_refresh).1 now
  ∧ (∀ (orders : List Order) (t : Nat),
      (compute_stats orders t).total_orders = orders.length
      ∧ (compute_stats orders t).delivered
          = orders.countP (fun o => decide (o.status = "delivered"))
      ∧ (compute_stats orders t).in_process
          = orders.countP (fun o => decide (o.status = "in-process"))
      ∧ (compute_stats orders t).in_route
          = orders.countP (fun o => decide (o.status = "in-route"))
      ∧ (compute_stats orders t).out_for_delivery
          = orders.countP (fun o => decide (o.status = "out-for-delivery"))
      ∧ (compute_stats orders t).cancelled
          = orders.countP (fun o => decide (o.status = "cancelled")))
  ∧ (get_stats none [] now false).1
      = { total_orders := 4, delivered := 1, in_process := 1, in_route := 1,
          out_for_delivery := 1, cancelled := 0, last_updated := now } := by
  refine ⟨rfl, ?_, rfl⟩
  intro orders t
  refine ⟨rfl, ?_, ?_, ?_, ?_, ?_⟩ <;>
    simp [compute_stats, List.countP_eq_length_filter]

/-- First-seen distinct exhibitor names, in input order. -/
def first_seen_names (orders : List Order) : List String :=
  orders.foldl
    (fun acc o => if o.exhibitor_name ∈ acc then acc else acc ++ [o.exhibitor_name]) []

/-- Modelled from the spec: the summary the spec prescribes for the
exhibitor named `n` — the first-seen `booth_number` for that name and the
order counts over the whole input. -/
def roster_entry (orders : List Order) (n : String) : ExhibitorSummary :=
  { name := n
  , booth := ((orders.find? (fun o => decide (o.exhibitor_name = n))).map
      Order.booth_number).getD ""
  , total_orders := (orders.filter (fun o => decide (o.exhibitor_name = n))).length
  , delivered_orders := (orders.filter (fun o =>
      decide (o.exhibitor_name = n) && decide (o.status = "delivered"))).length }

/-- Modelled from the spec (refinement target for the roster): one
`ExhibitorSummary` per `exhibitor_name`, in first-seen order across the
input sequence. -/
def roster_spec (orders : List Order) : List ExhibitorSummary :=
  (first_seen_names orders).map (roster_entry orders)

theorem mem_foldl_names (l : List Order) (n : String) :
    ∀ acc : List String,
      (n ∈ l.foldl
          (fun acc o => if o.exhibitor_name ∈ acc then acc else acc ++ [o.exhibitor_name]) acc
        ↔ n ∈ acc ∨ ∃ o ∈ l, o.exhibitor_name = n) := by
  induction l with
  | nil => intro acc; simp
  | cons o l ih =>
      intro acc
      simp only [List.foldl_cons]
      rw [ih]
      by_cases h : o.exhibitor_name ∈ acc
      · simp only [h, if_true, List.exists_mem_cons_iff]
        constructor
        · rintro (h1 | h1)
          · exact Or.inl h1
          · exact Or.inr (Or.inr h1)
        · rintro (h1 | h1 | h1)
          · exact Or.inl h1
          · exact Or.inl (h1 ▸ h)
          · exact Or.inr h1
      · simp only [h, if_false, List.mem_append, List.mem_singleton,
          List.exists_mem_cons_iff]
        constructor
        · rintro ((h1 | h1) | h1)
          · exact Or.inl h1
          · exact Or.inr (Or.inl h1.symm)
          · exact Or.inr (Or.inr h1)
        · rintro (h1 | h1 | h1)
          · exact Or.inl (Or.inl h1)
          · exact Or.inl (Or.inr h1.symm)
          · exact Or.inr h1

theorem mem_first_seen_names (orders : List Order) (n : String) :
    n ∈ first_seen_names orders ↔ ∃ o ∈ orders, o.exhibitor_name = n := by
  rw [first_seen_names, mem_foldl_names]
  simp

theorem first_seen_names_append (orders : List Order) (o : Order) :
    first_seen_names (orders ++ [o])
      = if o.exhibitor_name ∈ first_seen_names orders then first_seen_names orders
        else first_seen_names orders ++ [o.exhibitor_name] := by
  rw [first_seen_names, List.foldl_append]
  rfl

theorem build_roster_append (orders : List Order) (o : Order) :
    build_roster (orders ++ [o]) = roster_step (build_roster orders) o := by
  rw [build_roster, List.foldl_append]
  rfl

theorem roster_spec_names (orders : List Order) :
    (roster_spec orders).map (fun s => s.name) = first_seen_names orders := by
  rw [roster_spec, List.map_map]
  have h : ((fun s => s.name) ∘ roster_entry orders) = fun n => n := by
    funext n
    rfl
  rw [h]
  exact List.map_id' _

theorem find?_isSome_of_mem {α : Type} (p : α → Bool) (l : List α) (x : α)
    (hx : x ∈ l) (hp : p x = true) : ∃ y, l.find? p = some y := by
  cases hf : l.find? p with
  | some y => exact ⟨y, rfl⟩
  | none => exact absurd hp (by simpa using List.find?_eq_none.mp hf x hx)

/-- Appending one order whose exhibitor already occurs updates that
exhibitor's spec entry exactly like the code's in-place increment. -/
theorem roster_entry_append (orders : List Order) (o : Order) (n : String)
    (hn : ∃ o2 ∈ orders, o2.exhibitor_name = n) :
    roster_entry (orders ++ [o]) n = roster_bump o (roster_entry orders n) := by
  obtain ⟨o2, ho2, hname⟩ := hn
  obtain ⟨y, hy⟩ := find?_isSome_of_mem (fun o3 => decide (o3.exhibitor_name = n))
    orders o2 ho2 (by simp [hname])
  by_cases heq : n = o.exhibitor_name
  · subst heq
    by_cases hst : o.status = "delivered" <;>
      simp [roster_entry, roster_bump, List.filter_append, List.find?_append, hy,
        hst, Option.or]
  · have hne : ¬(o.exhibitor_name = n) := fun h => heq h.symm
    simp [roster_entry, roster_bump, List.filter_append, List.find?_append, hy,
      hne, Option.or, fun h : n = o.exhibitor_name => heq h]

/-- Appending an order with a brand-new exhibitor name makes its spec
entry the code's bumped zero entry. -/
theorem roster_entry_append_new (orders : List Order) (o : Order)
    (hn : ∀ o2 ∈ orders, o2.exhibitor_name ≠ o.exhibitor_name) :
    roster_entry (orders ++ [o]) o.exhibitor_name
      = roster_bump o
          { name := o.exhibitor_name, booth := o.booth_number
          , total_orders := 0, delivered_orders := 0 } := by
  have hfind : orders.find?
      (fun o3 => decide (o3.exhibitor_name = o.exhibitor_name)) = none :=
    List.find?_eq_none.mpr (fun x hx => by simp [hn x hx])
  have hfil : orders.filter
      (fun o3 => decide (o3.exhibitor_name = o.exhibitor_name)) = [] :=
    List.filter_eq_nil_iff.mpr (fun x hx => by simp [hn x hx])
  have hfil2 : orders.filter (fun o3 =>
      decide (o3.exhibitor_name = o.exhibitor_name)
        && decide (o3.status = "delivered")) = [] :=
    List.filter_eq_nil_iff.mpr (fun x hx => by simp [hn x hx])
  by_cases hst : o.status = "delivered" <;>
    simp [roster_entry, roster_bump, List.filter_append, List.find?_append,
      hfind, hfil, hfil2, hst, Option.or]

/-- The roster the code folds up is exactly the roster the spec
describes. -/
theorem build_roster_eq_spec (orders : List Order) :
    build_roster orders = roster_spec orders := by
  induction orders using List.reverseRecOn with
  | nil => rfl
  | append_singleton orders o ih =>
      rw [build_roster_append, ih]
      have hmap : List.map (roster_bump o) (roster_spec orders)
          = List.map (roster_entry (orders ++ [o])) (first_seen_names orders) := by
        rw [roster_spec, List.map_map]
        apply List.map_congr_left
        intro n hnmem
        exact (roster_entry_append orders o n
          ((mem_first_seen_names orders n).mp hnmem)).symm
      by_cases hmem : o.exhibitor_name ∈ first_seen_names orders
      · have hany : (roster_spec orders).any
            (fun s => s.name = o.exhibitor_name) = true := by
          rw [List.any_eq_true]
          refine ⟨roster_entry orders o.exhibitor_name, ?_, by simp [roster_entry]⟩
          rw [roster_spec]
          exact List.mem_map_of_mem _ hmem
        simp only [roster_step, hany, if_true]
        rw [hmap]
        rw [show roster_spec (orders ++ [o])
            = List.map (roster_entry (orders ++ [o])) (first_seen_names orders) from by
          rw [roster_spec, first_seen_names_append, if_pos hmem]]
      · have hany : (roster_spec orders).any
            (fun s => s.name = o.exhibitor_name) = false := by
          rw [List.any_eq_false]
          intro s hs
          rw [roster_spec] at hs
          obtain ⟨n, hn, rfl⟩ := List.mem_map.mp hs
          simp only [roster_entry, decide_eq_true_eq]
          intro heq
          exact hmem (heq ▸ hn)
        have hforall : ∀ o2 ∈ orders, o2.exhibitor_name ≠ o.exhibitor_name := by
          intro o2 ho2 heq
          exact hmem ((mem_first_seen_names orders o.exhibitor_name).mpr ⟨o2, ho2, heq⟩)
        simp only [roster_step, hany, Bool.false_eq_true, if_false]
        rw [List.map_append, hmap]
        rw [show roster_spec (orders ++ [o])
            = List.map (roster_entry (orders ++ [o])) (first_seen_names orders)
              ++ [roster_entry (orders ++ [o]) o.exhibitor_name] from by
          rw [roster_spec, first_seen_names_append, if_neg hmem, List.map_append]
          rfl]
        rw [roster_entry_append_new orders o hforall]
        rfl

/-- Claim C8 (amended): the roster groups orders by exact `exhibitor_name`
key (the first-seen order supplies the key and the booth), emits one
summary per group in first-seen order — precisely `roster_spec` — and on
the 4 mock orders yields exactly 3 entries, the `"TechFlow Innovations"`
one having `total_orders = 2` and `delivered_orders = 0`. -/
theorem spec_C8 (orders : List Order) :
    build_roster orders = roster_spec orders
  ∧ (∀ (fetch : Option (List Order)) (now : Nat) (fr : Bool),
      (get_exhibitors fetch [] now fr).1
        = build_roster (load_orders_from_abacus fetch [] now fr).1)
  ∧ (build_roster get_mock_orders).length = 3
  ∧ (build_roster get_mock_orders).find?
        (fun s => s.name = "TechFlow Innovations")
      = some { name := "TechFlow Innovations", booth := "A-245"
             , total_orders := 2, delivered_orders := 0 } := by
  refine ⟨build_roster_eq_spec orders, ?_, rfl, rfl⟩
  intro fetch now fr
  cases fr <;> rfl

/-- Counterexample to C8 as stated: the mock set names three distinct
exhibitors, so the roster built from it has 3 entries, not 2. -/
theorem spec_C8_counterexample :
    (build_roster get_mock_orders).length = 3
  ∧ (build_roster get_mock_orders).length ≠ 2 := ⟨rfl, by decide⟩

/-- Invariant of C10: every entry of the cache list under key
`"all_orders"` holds a non-empty order list.  Because `set_cache` prepends
and only `clear_cache` removes entries, the cache list at any reachable
state contains every pair stored since the last clear, so this invariant
at every reachable state covers every value ever stored under that key. -/
def all_orders_inv (c : Cache) : Prop :=
  ∀ e ∈ c, e.1 = "all_orders" → ∃ l, e.2.1 = CacheVal.ordersV l ∧ l ≠ []

theorem all_orders_inv_set (c : Cache) (k : String) (v : CacheVal) (now : Nat)
    (h : all_orders_inv c)
    (hv : k = "all_orders" → ∃ l, v = CacheVal.ordersV l ∧ l ≠ []) :
    all_orders_inv (set_cache c k v now) := by
  intro e he hk
  rcases List.mem_cons.mp he with rfl | he2
  · exact hv hk
  · exact h e he2 hk

theorem all_orders_inv_load (fetch : Option (List Order)) (c : Cache)
    (now : Nat) (fr : Bool) (h : all_orders_inv c) :
    all_orders_inv (load_orders_from_abacus fetch c now fr).2.1 := by
  rcases load_orders_cases fetch c now fr with
    ⟨l, _, _, _, hl⟩ | ⟨l, _, hlen, hl⟩ | ⟨_, hl⟩ <;> rw [hl]
  · exact h
  · exact all_orders_inv_set _ _ _ _ h
      (fun _ => ⟨l, rfl, by intro hn; rw [hn] at hlen; simp at hlen⟩)
  · exact all_orders_inv_set _ _ _ _ h
      (fun _ => ⟨get_mock_orders, rfl, by simp [get_mock_orders]⟩)

theorem booth_cache_cases (fetch : Option (List Order)) (c : Cache) (now : Nat)
    (bn : String) (fr : Bool) :
    (get_orders_by_booth fetch c now bn fr).2.1 = c
  ∨ (get_orders_by_booth fetch c now bn fr).2.1
      = set_cache (load_orders_from_abacus fetch c now fr).2.1
          ("booth_" ++ bn) (CacheVal.boothV (get_orders_by_booth fetch c now bn fr).1) now := by
  unfold get_orders_by_booth
  cases fr with
  | true => right; rfl
  | false =>
      cases hg : get_from_cache c ("booth_" ++ bn) now true with
      | none => right; simp [hg]
      | some v =>
          cases v with
          | boothV b => left; simp [hg]
          | ordersV l => right; simp [hg]
          | exhibV b => right; simp [hg]
          | rosterV l => right; simp [hg]

theorem exhibitor_cache_cases (fetch : Option (List Order)) (c : Cache) (now : Nat)
    (en : String) (fr : Bool) :
    (get_orders_by_exhibitor fetch c now en fr).2.1 = c
  ∨ (get_orders_by_exhibitor fetch c now en fr).2.1
      = set_cache (load_orders_from_abacus fetch c now fr).2.1
          ("exhibitor_" ++ en) (CacheVal.exhibV (get_orders_by_exhibitor fetch c now en fr).1) now := by
  unfold get_orders_by_exhibitor
  cases fr with
  | true => right; rfl
  | false =>
      cases hg : get_from_cache c ("exhibitor_" ++ en) now true with
      | none => right; simp [hg]
      | some v =>
          cases v with
          | exhibV b => left; simp [hg]
          | ordersV l => right; simp [hg]
          | boothV b => right; simp [hg]
          | rosterV l => right; simp [hg]

theorem exhibitors_cache_cases (fetch : Option (List Order)) (c : Cache) (now : Nat)
    (fr : Bool) :
    (get_exhibitors fetch c now fr).2.1 = c
  ∨ (get_exhibitors fetch c now fr).2.1
      = set_cache (load_orders_from_abacus fetch c now fr).2.1
          "exhibitors" (CacheVal.rosterV (get_exhibitors fetch c now fr).1) now := by
  unfold get_exhibitors
  cases fr with
  | true => right; rfl
  | false =>
      cases hg : get_from_cache c "exhibitors" now true with
      | none => right; simp [hg]
      | some v =>
          cases v with
          | rosterV l =>
              cases he : l.isEmpty with
              | true => right; simp [hg, he]
              | false => left; simp [hg, he]
          | ordersV l => right; simp [hg]
          | boothV b => right; simp [hg]
          | exhibV b => right; simp [hg]

theorem all_orders_inv_applyOp (c : Cache) (op : Op) (h : all_orders_inv c) :
    all_orders_inv (applyOp c op) := by
  cases op with
  | ordersOp fetch now fr => exact all_orders_inv_load fetch c now fr h
  | boothOp fetch now bn fr =>
      have ha : applyOp c (Op.boothOp fetch now bn fr)
          = (get_orders_by_booth fetch c now bn fr).2.1 := rfl
      rw [ha]
      rcases booth_cache_cases fetch c now bn fr with heq | heq <;> rw [heq]
      · exact h
      · exact all_orders_inv_set _ _ _ _ (all_orders_inv_load fetch c now fr h)
          (fun hk => absurd hk (booth_key_ne bn))
  | exhibitorOp fetch now en fr =>
      have ha : applyOp c (Op.exhibitorOp fetch now en fr)
          = (get_orders_by_exhibitor fetch c now en fr).2.1 := rfl
      rw [ha]
      rcases exhibitor_cache_cases fetch c now en fr with heq | heq <;> rw [heq]
      · exact h
      · exact all_orders_inv_set _ _ _ _ (all_orders_inv_load fetch c now fr h)
          (fun hk => absurd hk (exhibitor_key_ne en))
  | exhibitorsOp fetch now fr =>
      have ha : applyOp c (Op.exhibitorsOp fetch now fr)
          = (get_exhibitors fetch c now fr).2.1 := rfl
      rw [ha]
      rcases exhibitors_cache_cases fetch c now fr with heq | heq <;> rw [heq]
      · exact h
      · exact all_orders_inv_set _ _ _ _ (all_orders_inv_load fetch c now fr h)
          (fun hk => absurd hk (by decide))
  | statsOp fetch now fr => exact all_orders_inv_load fetch c now fr h
  | clearOp =>
      intro e he hk
      exact absurd he (List.not_mem_nil e)

/-- Claim C10: along every request history, every cache entry under
`"all_orders"` is a non-empty order list, and `load_orders_from_abacus`
always returns a non-empty list. -/
theorem spec_C10 (ops : List Op) :
    all_orders_inv (runOps ops)
  ∧ ∀ (fetch : Option (List Order)) (c : Cache) (now : Nat) (fr : Bool),
      (load_orders_from_abacus fetch c now fr).1 ≠ [] := by
  constructor
  · have hstep : ∀ (l : List Op) (c : Cache),
        all_orders_inv c → all_orders_inv (l.foldl applyOp c) := by
      intro l
      induction l with
      | nil => intro c h; exact h
      | cons op rest ih => intro c h; exact ih _ (all_orders_inv_applyOp c op h)
    exact hstep ops [] (fun e he _ => absurd he (List.not_mem_nil e))
  · exact load_orders_ne_nil
